import Mathlib

/-!
# Verification of the schema-directed SOAP marshalling engine

Shallow embedding of the marshalling engine of the `gam_apps_script`
repository: the `SoapCreator` encoder (`soap_creator.ts`), the new decoder
(`soap_parser.ts`), the legacy `SoapHelper` decoder (`soap_helper.ts`), the
type-graph model (`soap_type_index.ts` and `soap_type.ts`) and the
fault-handling path of `AdManagerService` (`ad_manager_service.ts`).

Modelling conventions:
* JavaScript dynamic values are modelled by `JsValue`.  JavaScript numbers
  are modelled as integers (`Int` plus a distinguished `nan`): every numeric
  operation the engine performs on them (validation via `Number`,
  `Number.isInteger`, `isNaN`, and decimal printing via `String`) is
  faithfully mirrored on that fragment; fractional literals are outside the
  model and parse as NaN.
* `Number(string)` is modelled by `parseNumber`, covering the decimal
  integer fragment of the JavaScript grammar (empty string is 0, optional
  sign, decimal digits; everything else is NaN).
* Recursive engine procedures take a fuel argument that strictly decreases
  on every call inside the mutual block; exhaustion is the distinguished
  error `outOfFuel` (respectively a distinguished result), which no theorem
  below ever asserts.  On the actual inputs the code runs on, the recursion
  is finite, so fuel is a pure termination device.
-/

namespace GamSoap

/-! ## Decimal printing and parsing of integers -/

/-- One decimal digit rendered as a character (`0` ↦ `'0'`, …). -/
def digitChar (d : Nat) : Char := Char.ofNat (48 + d)

/-- Decimal rendering of a natural number, most significant digit first;
mirrors the JavaScript `String(n)` conversion for non-negative integers. -/
def natToString (n : Nat) : String :=
  if n = 0 then "0" else String.mk (((Nat.digits 10 n).map digitChar).reverse)

/-- Decimal rendering of an integer; mirrors `String(n)` for integers. -/
def intToString (n : Int) : String :=
  if n < 0 then "-" ++ natToString n.natAbs else natToString n.natAbs

/-- The numeric value of a decimal digit character, if it is one. -/
def charDigit (c : Char) : Option Nat :=
  if 48 ≤ c.toNat ∧ c.toNat ≤ 57 then some (c.toNat - 48) else none

/-- Accumulating decimal parse, most significant digit first. -/
def natFromCharsAux : Nat → List Char → Option Nat
  | acc, [] => some acc
  | acc, c :: cs =>
    match charDigit c with
    | some d => natFromCharsAux (acc * 10 + d) cs
    | none => none

/-- Parse a non-empty all-digit character list as a natural number. -/
def natFromChars (cs : List Char) : Option Nat :=
  if cs = [] then none else natFromCharsAux 0 cs

/-- Model of the JavaScript `Number(string)` conversion on the decimal
integer fragment: the empty string is 0, an optional sign followed by
decimal digits is the signed value, and everything else is NaN (`none`). -/
def parseNumber (s : String) : Option Int :=
  match s.data with
  | [] => some 0
  | c :: cs =>
    if c = '-' then (natFromChars cs).map (fun n => -(n : Int))
    else if c = '+' then (natFromChars cs).map (fun n => (n : Int))
    else (natFromChars (c :: cs)).map (fun n => (n : Int))

/-! ## XML escaping (`soap_creator.ts` lines 73–78)

The source applies five sequential `String.replace` calls
(`&`, `<`, `>`, `"`, the apostrophe).  Because the replacement texts
introduce no character that a later replacement rewrites beyond the `&`
already handled first, the sequential replacements coincide with a single
character-wise substitution, which is how we model them. -/

/-- Escape one character as the five replacements do; the characters are
matched by code point (38 `&`, 60 `<`, 62 `>`, 34 the double quote, 39 the
apostrophe). -/
def escapeChar (c : Char) : String :=
  if c.toNat = 38 then "&amp;"
  else if c.toNat = 60 then "&lt;"
  else if c.toNat = 62 then "&gt;"
  else if c.toNat = 34 then "&quot;"
  else if c.toNat = 39 then "&apos;"
  else String.mk [c]

/-- Character-wise escaping of a character list. -/
def escapeList : List Char → List Char
  | [] => []
  | c :: cs => (escapeChar c).data ++ escapeList cs

/-- XML-escape a string: the five reserved characters are replaced. -/
def escapeXml (s : String) : String :=
  String.mk (escapeList s.data)

/-! ## JavaScript dynamic values -/

/-- A JavaScript runtime value, as the engine manipulates them: scalars,
`null`, `undefined`, arrays, and object literals (an ordered association
list of string keys, mirroring JavaScript property insertion order).
Numbers are integers plus NaN (see the module comment). -/
inductive JsValue where
  | str (s : String)
  | num (n : Int)
  | nan
  | bool (b : Bool)
  | null
  | undefined
  | arr (elems : List JsValue)
  | obj (fields : List (String × JsValue))

/-- `typeof v` as a string. -/
def jsTypeof : JsValue → String
  | .str _ => "string"
  | .num _ => "number"
  | .nan => "number"
  | .bool _ => "boolean"
  | .null => "object"
  | .undefined => "undefined"
  | .arr _ => "object"
  | .obj _ => "object"

/-- `Array.isArray v`. -/
def jsIsArray : JsValue → Bool
  | .arr _ => true
  | _ => false

mutual

/-- The JavaScript `String(v)` conversion. -/
def jsToString : JsValue → String
  | .str s => s
  | .num n => intToString n
  | .nan => "NaN"
  | .bool b => if b then "true" else "false"
  | .null => "null"
  | .undefined => "undefined"
  | .arr xs => jsArrJoin xs
  | .obj _ => "[object Object]"
termination_by structural v => v

/-- `Array.prototype.toString`: elements joined by commas, where `null`
and `undefined` entries print as the empty string. -/
def jsArrJoin : List JsValue → String
  | [] => ""
  | [.null] => ""
  | [.undefined] => ""
  | [x] => jsToString x
  | .null :: xs => "," ++ jsArrJoin xs
  | .undefined :: xs => "," ++ jsArrJoin xs
  | x :: xs => jsToString x ++ "," ++ jsArrJoin xs
termination_by structural l => l

end

/-- The JavaScript `Number(v)` conversion (`none` is NaN). -/
def jsNumber : JsValue → Option Int
  | .str s => parseNumber s
  | .num n => some n
  | .nan => none
  | .bool b => some (if b then 1 else 0)
  | .null => some 0
  | .undefined => none
  | .arr xs => parseNumber (jsToString (.arr xs))
  | .obj _ => none

/-- `key in v` for an object literal: key presence (even with an
`undefined` value). -/
def jsHasKey (v : JsValue) (key : String) : Bool :=
  match v with
  | .obj fields => fields.any (fun f => f.1 = key)
  | _ => false

/-- `v[key]`: the value stored under `key`, or `undefined`. -/
def jsGet (v : JsValue) (key : String) : JsValue :=
  match v with
  | .obj fields =>
    match fields.find? (fun f => f.1 = key) with
    | some f => f.2
    | none => .undefined
  | _ => .undefined

/-- `Object.keys v` (insertion order). -/
def jsKeys : JsValue → List String
  | .obj fields => fields.map (·.1)
  | _ => []

/-- Update an association list at `key`, keeping the original position if
the key is present (JavaScript property-update semantics), appending
otherwise. -/
def assocSet {α : Type} (fields : List (String × α)) (key : String) (v : α) :
    List (String × α) :=
  match fields with
  | [] => [(key, v)]
  | (k, w) :: rest =>
    if k = key then (k, v) :: rest else (k, w) :: assocSet rest key v

/-- Lookup in an association list. -/
def assocGet {α : Type} (fields : List (String × α)) (key : String) :
    Option α :=
  (fields.find? (fun f => f.1 = key)).map (·.2)

mutual

/-- The image of a value under `JSON.parse(JSON.stringify v)`:
object fields whose value is `undefined` are dropped, `undefined` array
entries and NaN become `null`, everything else survives. -/
def jsonRoundTrip : JsValue → JsValue
  | .str s => .str s
  | .num n => .num n
  | .nan => .null
  | .bool b => .bool b
  | .null => .null
  | .undefined => .undefined
  | .arr xs => .arr (jsonElems xs)
  | .obj fields => .obj (jsonFields fields)
termination_by structural v => v

/-- JSON round trip of object fields: `undefined`-valued fields vanish. -/
def jsonFields : List (String × JsValue) → List (String × JsValue)
  | [] => []
  | (_, .undefined) :: rest => jsonFields rest
  | (k, v) :: rest => (k, jsonRoundTrip v) :: jsonFields rest
termination_by structural l => l

/-- JSON round trip of array elements: `undefined` becomes `null`. -/
def jsonElems : List JsValue → List JsValue
  | [] => []
  | .undefined :: rest => .null :: jsonElems rest
  | v :: rest => jsonRoundTrip v :: jsonElems rest
termination_by structural l => l

end

/-! ## The type graph (`soap_type_index.ts`)

`SoapObjectType` values in the source form a shared graph (a child type
holds a reference to its base and vice versa).  The embedding uses finite
trees: a concrete fixture gives each node a `baseType` copy carrying the
base chain needed by `getAllPropertiesForType`, and `childTypes` copies
carrying the descendant subtrees used by the child-type search, which is
exactly the part of the graph each traversal reads. -/

/-- The five SOAP primitive types (`SoapPrimitiveType`). -/
inductive SoapPrim where
  | string
  | boolean
  | int
  | long
  | double
deriving DecidableEq

/-- `SoapEnumType`: a named enumeration of allowed string values. -/
structure SoapEnumType where
  name : String
  enumerations : List String
deriving DecidableEq

mutual

/-- `SoapType`: primitive, enum, or object type. -/
inductive SoapType where
  | prim (p : SoapPrim)
  | enumT (e : SoapEnumType)
  | obj (o : SoapObjectType)

/-- `SoapObjectType`: name, optional base type, named properties in
declaration order (`SoapPropertyIndex`), optional child types. -/
inductive SoapObjectType where
  | mk (name : String) (baseType : Option SoapObjectType)
      (properties : List (String × SoapObjectTypeProperty))
      (childTypes : Option (List SoapObjectType))

/-- `SoapObjectTypeProperty`: a property on a SOAP object type. -/
inductive SoapObjectTypeProperty where
  | mk (name : String) (type : SoapType) (isArray : Bool) (isOptional : Bool)

end

/-- An index of properties, keyed by property name, in declaration order. -/
abbrev SoapPropertyIndex := List (String × SoapObjectTypeProperty)

def SoapObjectType.name : SoapObjectType → String
  | .mk n _ _ _ => n

def SoapObjectType.baseType : SoapObjectType → Option SoapObjectType
  | .mk _ b _ _ => b

def SoapObjectType.properties : SoapObjectType → SoapPropertyIndex
  | .mk _ _ ps _ => ps

def SoapObjectType.childTypes : SoapObjectType → Option (List SoapObjectType)
  | .mk _ _ _ cs => cs

def SoapObjectTypeProperty.name : SoapObjectTypeProperty → String
  | .mk n _ _ _ => n

def SoapObjectTypeProperty.type : SoapObjectTypeProperty → SoapType
  | .mk _ t _ _ => t

def SoapObjectTypeProperty.isArray : SoapObjectTypeProperty → Bool
  | .mk _ _ a _ => a

def SoapObjectTypeProperty.isOptional : SoapObjectTypeProperty → Bool
  | .mk _ _ _ o => o

/-- `SimpleSoapType`: the types representable as a single text value. -/
inductive SimpleSoapType where
  | prim (p : SoapPrim)
  | enumT (e : SoapEnumType)

/-- The string a primitive type name renders as. -/
def SoapPrim.typeName : SoapPrim → String
  | .string => "string"
  | .boolean => "boolean"
  | .int => "int"
  | .long => "long"
  | .double => "double"

mutual

/-- Structural equality test on `SoapType`.  The source compares type
objects with JavaScript reference equality (`!==`); in the shared graph
every named type is a single object, so reference equality coincides with
structural equality of the trees the embedding uses. -/
def soapTypeBeq : SoapType → SoapType → Bool
  | .prim a, .prim b => a = b
  | .enumT a, .enumT b => a = b
  | .obj a, .obj b => soapObjBeq a b
  | _, _ => false
termination_by structural a => a

def soapObjBeq : SoapObjectType → SoapObjectType → Bool
  | .mk n₁ b₁ ps₁ cs₁, .mk n₂ b₂ ps₂ cs₂ =>
    n₁ = n₂ && soapObjOptBeq b₁ b₂ && soapPropsBeq ps₁ ps₂ &&
      soapObjListOptBeq cs₁ cs₂
termination_by structural a => a

def soapObjOptBeq : Option SoapObjectType → Option SoapObjectType → Bool
  | none, none => true
  | some a, some b => soapObjBeq a b
  | _, _ => false
termination_by structural a => a

def soapObjListOptBeq :
    Option (List SoapObjectType) → Option (List SoapObjectType) → Bool
  | none, none => true
  | some a, some b => soapObjListBeq a b
  | _, _ => false
termination_by structural a => a

def soapObjListBeq : List SoapObjectType → List SoapObjectType → Bool
  | [], [] => true
  | a :: as', b :: bs' => soapObjBeq a b && soapObjListBeq as' bs'
  | _, _ => false
termination_by structural a => a

def soapPropsBeq : SoapPropertyIndex → SoapPropertyIndex → Bool
  | [], [] => true
  | (k₁, p₁) :: as', (k₂, p₂) :: bs' =>
    k₁ = k₂ && soapPropBeq p₁ p₂ && soapPropsBeq as' bs'
  | _, _ => false
termination_by structural a => a

def soapPropBeq : SoapObjectTypeProperty → SoapObjectTypeProperty → Bool
  | .mk n₁ t₁ a₁ o₁, .mk n₂ t₂ a₂ o₂ =>
    n₁ = n₂ && soapTypeBeq t₁ t₂ && a₁ = a₂ && o₁ = o₂
termination_by structural a => a

end

/-- Merge of two property indexes with JavaScript object-spread semantics
(second operand wins; first operand key order kept, new keys appended). -/
def spreadMerge (a b : SoapPropertyIndex) : SoapPropertyIndex :=
  (a.map (fun kv =>
    match assocGet b kv.1 with
    | some p => (kv.1, p)
    | none => kv)) ++
    b.filter (fun kv => (assocGet a kv.1).isNone)

/-- The `while (baseType)` loop of `getAllPropertiesForType`: merge the
current base type's properties underneath the accumulator and move up. -/
def getAllPropertiesUp : SoapObjectType → SoapPropertyIndex →
    SoapPropertyIndex
  | .mk _ none ps _, acc => spreadMerge ps acc
  | .mk _ (some bb) ps _, acc => getAllPropertiesUp bb (spreadMerge ps acc)
termination_by structural b => b

/-- `getAllPropertiesForType` (`soap_type_index.ts` lines 124–137): walk
the base chain upward, merging each base type underneath the accumulated
properties. -/
def getAllPropertiesForType (t : SoapObjectType) : SoapPropertyIndex :=
  match t with
  | .mk _ none ps _ => ps
  | .mk _ (some b) ps _ => getAllPropertiesUp b ps

/-- `SoapTypeIndex`: object types by name. -/
abbrev SoapTypeIndex := List (String × SoapObjectType)

/-! ## Apps Script XML elements -/

/-- An XML attribute; `getName()` returns the local `name`, the namespace
prefix is kept separately (an attribute serialized as `xsi:type="…"`
parses back with local name `type`). -/
structure XmlAttribute where
  prefix' : String
  name : String
  value : String

/-- A parsed XML element: tag name, attributes, child elements, and the
text content `getText()` returns (already XML-unescaped by the parser). -/
inductive XmlElement where
  | mk (name : String) (attributes : List XmlAttribute)
      (children : List XmlElement) (text : String)

def XmlElement.name : XmlElement → String
  | .mk n _ _ _ => n

def XmlElement.attributes : XmlElement → List XmlAttribute
  | .mk _ a _ _ => a

def XmlElement.children : XmlElement → List XmlElement
  | .mk _ _ c _ => c

def XmlElement.text : XmlElement → String
  | .mk _ _ _ t => t

/-- Render one attribute as serialized XML. -/
def renderAttr (a : XmlAttribute) : String :=
  " " ++ (if a.prefix' = "" then a.name else a.prefix' ++ ":" ++ a.name) ++
    "=\"" ++ a.value ++ "\""

mutual

/-- Serialize an element back to XML text, the canonical string form
`XmlService.getRawFormat().format(element)` produces (modulo whitespace):
tag, attributes, then either the escaped text content or the serialized
children. -/
def renderXml : XmlElement → String
  | .mk n attrs children text =>
    "<" ++ n ++ String.join (attrs.map renderAttr) ++ ">" ++
      (match children with
       | [] => escapeXml text
       | cs => renderXmlList cs) ++
      "</" ++ n ++ ">"

def renderXmlList : List XmlElement → String
  | [] => ""
  | c :: cs => renderXml c ++ renderXmlList cs

end

/-! ## The encoder (`soap_creator.ts`)

`SoapCreator.allPropertiesCache` memoizes the pure function
`getAllPropertiesForType` keyed by the type name; with one object per
named type the memoization is observationally transparent, so the
embedding calls the function directly. -/

/-- The errors the encoder throws, carrying the data the thrown `Error`
messages interpolate. -/
inductive EncodeError where
  /-- `Invalid usage of type …` (line 71). -/
  | invalidUsage (simpleType : SimpleSoapType) (value : JsValue)
  /-- `… is required but the value is undefined.` (lines 97 and 259). -/
  | requiredUndefined (propertyName : String)
  /-- `… is an array but the value is not an array` (line 101). -/
  | arrayExpected (propertyName : String) (value : JsValue)
  /-- `… is not an array but the value is an array` (line 105). -/
  | arrayNotExpected (propertyName : String) (value : JsValue)
  /-- `Unrecognized properties for …` (line 276). -/
  | unrecognizedProperties (typeName : String) (keys : List String)
  /-- `throw lastError` with `lastError` still `undefined` (line 208). -/
  | rethrownUndefined
  /-- Fuel exhaustion: a pure artefact of the embedding. -/
  | outOfFuel

/-- `convertSimpleSoapTypeToXmlString` (lines 47–80): validate a scalar
against a primitive or enum type, escape it, and emit the text node
(empty for `null`). -/
def convertSimpleSoapTypeToXmlString (simpleSoapType : SimpleSoapType)
    (value : JsValue) : Except EncodeError String :=
  let validValue :=
    match simpleSoapType with
    | .prim .int =>
      -- `Number.isInteger(Number(value))`: in the integer number model
      -- every non-NaN number is an integer.
      (jsNumber value).isSome
    | .prim .double => (jsNumber value).isSome
    | .prim .long => (jsNumber value).isSome
    | .prim .boolean => ["true", "false"].contains (jsToString value)
    | .prim .string => true
    | .enumT e => e.enumerations.contains (jsToString value)
  if !validValue then .error (.invalidUsage simpleSoapType value)
  else
    let escapedVal := escapeXml (jsToString value)
    .ok (match value with
         | .null => ""
         | _ => escapedVal)

/-- `hasValueConflict` (lines 165–170): the hand-written disambiguation
between the structurally identical `NumberValue` and `TextValue` sibling
types. -/
def hasValueConflict (soapObjectType : SoapObjectType) (value : JsValue) :
    Bool :=
  if soapObjectType.name = "NumberValue" then
    !(jsTypeof (jsGet value "value") = "number")
  else false

/-- The working set of unconsumed value keys (a JavaScript `Set` of
strings, iterated only for the error message). -/
abbrev KeySet := List String

/-- `Set.delete`. -/
def keyDelete (ks : KeySet) (k : String) : KeySet :=
  ks.filter (fun x => x ≠ k)

/-- The result of a successful object conversion. -/
structure EncodeResult where
  actualType : SoapType
  soapXmlString : String

mutual

/-- `convertSoapObjectPropertyToXmlString` (lines 89–125): shape checks,
then one tag per entry (the value itself for a non-array property), with
an `xsi:type` attribute when the resolved concrete type differs from the
declared property type. -/
def convertSoapObjectPropertyToXmlString (fuel : Nat)
    (soapObjectTypeProperty : SoapObjectTypeProperty) (value : JsValue) :
    Except EncodeError String :=
  match fuel with
  | 0 => .error .outOfFuel
  | fuel + 1 =>
    let propertyName := soapObjectTypeProperty.name
    match value, soapObjectTypeProperty.isOptional with
    | .undefined, true => .ok ""
    | .undefined, false => .error (.requiredUndefined propertyName)
    | _, _ =>
      if soapObjectTypeProperty.isArray && !jsIsArray value then
        .error (.arrayExpected propertyName value)
      else if !soapObjectTypeProperty.isArray && jsIsArray value then
        .error (.arrayNotExpected propertyName value)
      else
        let valueAsArray :=
          match value with
          | .arr xs => xs
          | v => [v]
        convertPropertyValues fuel soapObjectTypeProperty valueAsArray
termination_by structural fuel

/-- The `for (const val of valueAsArray)` loop of
`convertSoapObjectPropertyToXmlString` (lines 111–123). -/
def convertPropertyValues (fuel : Nat) (p : SoapObjectTypeProperty)
    (vals : List JsValue) : Except EncodeError String :=
  match fuel with
  | 0 => .error .outOfFuel
  | fuel + 1 =>
    match vals with
    | [] => .ok ""
    | val :: rest => do
      let r ← convertSoapValueToXmlString fuel p.type val
      let startTag :=
        match r.actualType with
        | .obj o =>
          if !soapTypeBeq p.type r.actualType then
            "<" ++ p.name ++ " xsi:type=\"" ++ o.name ++ "\">"
          else "<" ++ p.name ++ ">"
        | _ => "<" ++ p.name ++ ">"
      let restStr ← convertPropertyValues fuel p rest
      .ok (startTag ++ r.soapXmlString ++ "</" ++ p.name ++ ">" ++ restStr)
termination_by structural fuel

/-- `convertSoapValueToXmlString` (lines 136–151): dispatch on the kind of
the declared type.  (The closing `throw Unsupported type` is unreachable:
the `SoapType` union is closed in the embedding.) -/
def convertSoapValueToXmlString (fuel : Nat) (soapType : SoapType)
    (value : JsValue) : Except EncodeError EncodeResult :=
  match fuel with
  | 0 => .error .outOfFuel
  | fuel + 1 =>
    match soapType with
    | .obj o => (convertSoapObjectToXmlStringImpl fuel o value none none none).1
    | .enumT e =>
      (convertSimpleSoapTypeToXmlString (.enumT e) value).map
        (fun s => ⟨.enumT e, s⟩)
    | .prim p =>
      (convertSimpleSoapTypeToXmlString (.prim p) value).map
        (fun s => ⟨.prim p, s⟩)
termination_by structural fuel

/-- `convertSoapObjectToXmlStringImpl` (lines 236–279).  The second
component of the result is the final state of `valueKeysSet`: the set is
the caller-supplied `keysToParse` object and the deletions the property
loop performs on it are visible to the caller even when the conversion
throws, which is what the source's shared mutable `Set` does. -/
def convertSoapObjectToXmlStringImpl (fuel : Nat)
    (soapObjectType : SoapObjectType) (value : JsValue)
    (soapXml : Option String) (propertiesToParse : Option SoapPropertyIndex)
    (keysToParse : Option KeySet) :
    Except EncodeError EncodeResult × KeySet :=
  match fuel with
  | 0 => (.error .outOfFuel, keysToParse.getD [])
  | fuel + 1 =>
    let soapXmlString := soapXml.getD ""
    let valueKeysSet := keysToParse.getD (jsKeys value)
    let allProperties :=
      propertiesToParse.getD (getAllPropertiesForType soapObjectType)
    match convertPropsLoop fuel allProperties value soapXmlString valueKeysSet with
    | (.error e, ks) => (.error e, ks)
    | (.ok xml, ks) =>
      if ks.isEmpty then (.ok ⟨.obj soapObjectType, xml⟩, ks)
      else
        match soapObjectType.childTypes with
        | some children =>
          -- line 272 copies the set (`new Set([...valueKeysSet])`), so the
          -- descent works on its own set and `ks` is unchanged by it.
          (continueConversionWithChildTypes fuel children value xml ks none, ks)
        | none => (.error (.unrecognizedProperties soapObjectType.name ks), ks)
termination_by structural fuel

/-- The `for … of Object.entries(allProperties)` loop of
`convertSoapObjectToXmlStringImpl` (lines 248–263), with the running XML
string and the key-set state. -/
def convertPropsLoop (fuel : Nat) (props : SoapPropertyIndex)
    (value : JsValue) (acc : String) (keys : KeySet) :
    Except EncodeError String × KeySet :=
  match fuel with
  | 0 => (.error .outOfFuel, keys)
  | fuel + 1 =>
    match props with
    | [] => (.ok acc, keys)
    | (propertyName, property) :: rest =>
      if jsHasKey value propertyName then
        match convertSoapObjectPropertyToXmlString fuel property
            (jsGet value propertyName) with
        | .error e => (.error e, keys)
        | .ok s =>
          convertPropsLoop fuel rest value (acc ++ s)
            (keyDelete keys propertyName)
      else if !property.isOptional then
        (.error (.requiredUndefined propertyName), keys)
      else convertPropsLoop fuel rest value acc keys
termination_by structural fuel

/-- `continueConversionWithChildTypes` (lines 187–209): try each child
type in declaration order, skipping value conflicts, returning the first
success and rethrowing the last error otherwise.  The key set passed on
to a later sibling is the set as mutated by the earlier failed trials. -/
def continueConversionWithChildTypes (fuel : Nat)
    (soapObjectTypes : List SoapObjectType) (value : JsValue)
    (soapXml : String) (keysToParse : KeySet)
    (lastError : Option EncodeError) : Except EncodeError EncodeResult :=
  match fuel with
  | 0 => .error .outOfFuel
  | fuel + 1 =>
    match soapObjectTypes with
    | [] => .error (lastError.getD .rethrownUndefined)
    | t :: rest =>
      if hasValueConflict t value then
        continueConversionWithChildTypes fuel rest value soapXml keysToParse
          lastError
      else
        match convertSoapObjectToXmlStringImpl fuel t value (some soapXml)
            (some t.properties) (some keysToParse) with
        | (.ok r, _) => .ok r
        | (.error e, ks) =>
          continueConversionWithChildTypes fuel rest value soapXml ks (some e)
termination_by structural fuel

end

/-- `convertSoapObjectToXmlString` (lines 289–298): the public entry
point, returning only the XML string. -/
def convertSoapObjectToXmlString (fuel : Nat)
    (soapObjectType : SoapObjectType) (value : JsValue) :
    Except EncodeError String :=
  ((convertSoapObjectToXmlStringImpl fuel soapObjectType value none none
    none).1).map (fun r => r.soapXmlString)

/-! ## The decoder (`soap_parser.ts`)

The decoder instance owns two caches.  `convertedObjectCache` maps a cache
key (declared type name concatenated with the canonical XML string of the
element) to `JSON.stringify` of the converted object; a hit returns
`JSON.parse` of the stored string.  The embedding stores the value that
parse-of-stringify yields, namely `jsonRoundTrip` of the object. -/

/-- The mutable state of a `SoapParser` instance. -/
structure ParserState where
  validPropertiesCache : List (String × SoapPropertyIndex)
  convertedObjectCache : List (String × JsValue)

/-- A freshly constructed parser: both caches empty. -/
def ParserState.initial : ParserState := ⟨[], []⟩

/-- `Map.get`. -/
def cacheLookup {α : Type} (cache : List (String × α)) (key : String) :
    Option α :=
  (cache.find? (fun e => e.1 = key)).map (·.2)

/-- `Map.set`: replace in place, or append. -/
def cacheInsert {α : Type} (cache : List (String × α)) (key : String)
    (v : α) : List (String × α) :=
  assocSet cache key v

/-- The errors the decoder throws. -/
inductive DecodeError where
  /-- `Unrecognized type: …` (line 155). -/
  | unrecognizedType (typeName : String)
  /-- `… is not valid: …` (line 163). -/
  | notValid (propertyName : String)
  /-- Fuel exhaustion: a pure artefact of the embedding. -/
  | outOfFuel

/-- `convertXmlElementToPrimitiveType` (lines 56–77): empty text is
`undefined`; numeric types apply `Number`, `boolean` compares the text to
`"true"`, `string` (and enums, treated as strings) return the text.  (The
closing `throw Unsupported primitive type` is unreachable: the primitive
union is closed in the embedding.) -/
def convertXmlElementToPrimitiveType (element : XmlElement)
    (simpleSoapType : SimpleSoapType) : JsValue :=
  let value := element.text
  if value = "" then .undefined
  else
    let typeAsPrimitive :=
      match simpleSoapType with
      | .enumT _ => SoapPrim.string
      | .prim p => p
    match typeAsPrimitive with
    | .int | .double | .long =>
      match parseNumber value with
      | some n => .num n
      | none => .nan
    | .boolean => .bool (value = "true")
    | .string => .str value

mutual

/-- `getAllValidPropertiesForType` (lines 110–128): the inheritance-aware
union of the type's (optionally base-included) properties with those of
every descendant type, memoized per type name in
`validPropertiesCache`. -/
def getAllValidPropertiesForType (st : ParserState) (t : SoapObjectType)
    (includeBaseTypes : Bool) : SoapPropertyIndex × ParserState :=
  match cacheLookup st.validPropertiesCache t.name with
  | some cached => (cached, st)
  | none =>
    let start :=
      if includeBaseTypes then getAllPropertiesForType t else t.properties
    let (properties, st₁) :=
      match t with
      | .mk _ _ _ none => (start, st)
      | .mk _ _ _ (some childTypes) =>
        validPropertiesOfChildren st start childTypes
    (properties,
     { st₁ with
       validPropertiesCache :=
         cacheInsert st₁.validPropertiesCache t.name properties })
termination_by structural t

/-- The `forEach` over `childTypes` of `getAllValidPropertiesForType`
(lines 120–125). -/
def validPropertiesOfChildren (st : ParserState) (acc : SoapPropertyIndex) :
    List SoapObjectType → SoapPropertyIndex × ParserState
  | [] => (acc, st)
  | c :: cs =>
    let (childProps, st₁) := getAllValidPropertiesForType st c false
    validPropertiesOfChildren st₁ (spreadMerge acc childProps) cs
termination_by structural l => l

end

mutual

/-- `convertXmlElementToSoapType` (lines 88–99): enums return the element
text verbatim, object types recurse, primitives go through
`convertXmlElementToPrimitiveType`. -/
def convertXmlElementToSoapType (fuel : Nat) (serviceTypes : SoapTypeIndex)
    (st : ParserState) (element : XmlElement) (soapType : SoapType) :
    Except DecodeError JsValue × ParserState :=
  match fuel with
  | 0 => (.error .outOfFuel, st)
  | fuel + 1 =>
    match soapType with
    | .enumT _ => (.ok (.str element.text), st)
    | .obj o => convertXmlElementToObjectLiteral fuel serviceTypes st element o
    | .prim p => (.ok (convertXmlElementToPrimitiveType element (.prim p)), st)
termination_by structural fuel

/-- `convertXmlElementToObjectLiteral` (lines 138–182): cache lookup, type
override resolution via the `type` attribute, inheritance-aware property
lookup, recursive child conversion with array accumulation (an
`undefined` child value inside an array context is dropped), and cache
population with the JSON string of the result. -/
def convertXmlElementToObjectLiteral (fuel : Nat)
    (serviceTypes : SoapTypeIndex) (st : ParserState) (element : XmlElement)
    (soapObjectType : SoapObjectType) :
    Except DecodeError JsValue × ParserState :=
  match fuel with
  | 0 => (.error .outOfFuel, st)
  | fuel + 1 =>
    let cacheKey := soapObjectType.name ++ renderXml element
    match cacheLookup st.convertedObjectCache cacheKey with
    | some cachedObj => (.ok cachedObj, st)
    | none =>
      let typeNameSpecifiedInXml :=
        (element.attributes.find? (fun a => a.name = "type")).map (·.value)
      let actualSoapType : Except DecodeError SoapObjectType :=
        match typeNameSpecifiedInXml with
        | some tn =>
          -- an empty attribute value is falsy, hence no override
          if tn = "" then .ok soapObjectType
          else
            match cacheLookup serviceTypes tn with
            | some t => .ok t
            | none => .error (DecodeError.unrecognizedType tn)
        | none => .ok soapObjectType
      match actualSoapType with
      | .error e => (.error e, st)
      | .ok actualType =>
        let (allProperties, st₁) :=
          getAllValidPropertiesForType st actualType true
        match convertChildren fuel serviceTypes st₁ allProperties
            element.children [] with
        | (.error e, st₂) => (.error e, st₂)
        | (.ok fields, st₂) =>
          (.ok (.obj fields),
           { st₂ with
             convertedObjectCache :=
               cacheInsert st₂.convertedObjectCache cacheKey
                 (jsonRoundTrip (.obj fields)) })
termination_by structural fuel

/-- The `for (const child of element.getChildren())` loop of
`convertXmlElementToObjectLiteral` (lines 159–179), accumulating the
object fields. -/
def convertChildren (fuel : Nat) (serviceTypes : SoapTypeIndex)
    (st : ParserState) (allProperties : SoapPropertyIndex)
    (children : List XmlElement) (obj : List (String × JsValue)) :
    Except DecodeError (List (String × JsValue)) × ParserState :=
  match fuel with
  | 0 => (.error .outOfFuel, st)
  | fuel + 1 =>
    match children with
    | [] => (.ok obj, st)
    | child :: rest =>
      let propertyName := child.name
      match assocGet allProperties propertyName with
      | none => (.error (.notValid propertyName), st)
      | some property =>
        match convertXmlElementToSoapType fuel serviceTypes st child
            property.type with
        | (.error e, st₁) => (.error e, st₁)
        | (.ok childValue, st₁) =>
          let obj' :=
            if property.isArray then
              let childArray :=
                match assocGet obj propertyName with
                | some (.arr xs) => xs
                | _ => []
              let childArray :=
                match childValue with
                | .undefined => childArray
                | v => childArray ++ [v]
              assocSet obj propertyName (.arr childArray)
            else assocSet obj propertyName childValue
          convertChildren fuel serviceTypes st₁ allProperties rest obj'
termination_by structural fuel

end

/-! ## The legacy decoder (`soap_helper.ts`)

`SoapHelper` keeps a flat name-keyed map of types whose property types are
type *names*, so the graph is traversed through the index. -/

/-- `ComplexTypeProperty` (`soap_type.ts`): the property type is a name. -/
structure ComplexTypeProperty where
  name : String
  type : String
  isArray : Bool
  isOptional : Bool

/-- The `SoapType` class hierarchy of `soap_type.ts`: enums and complex
types. -/
inductive HelperSoapType where
  | complexT (name : String)
      (properties : List (String × ComplexTypeProperty))
      (baseTypeName : Option String) (extendedBy : List String)
  | enumT (name : String) (enumerations : List String)

/-- The `types` map a `SoapHelper` instance holds. -/
abbrev HelperTypeIndex := List (String × HelperSoapType)

/-- `type instanceof ComplexType`. -/
def HelperSoapType.isComplex : HelperSoapType → Bool
  | .complexT _ _ _ _ => true
  | .enumT _ _ => false

/-- The errors `SoapHelper.convertSoapElementToObjectLiteral` can raise. -/
inductive HelperError where
  /-- `Invalid usage of type …` (`soap_helper.ts` lines 643–646). -/
  | invalidUsage (typeName : String)
  /-- `… is not valid` (line 654). -/
  | notValid (propertyName : String)
  /-- A JavaScript `TypeError` from pushing onto a non-array value. -/
  | typeError
  /-- Fuel exhaustion: a pure artefact of the embedding. -/
  | outOfFuel

/-- The type name an element resolves to: the `type` override attribute
if present and non-empty, the assumed name otherwise
(`overrideTypeName || assumedTypeName`). -/
def helperResolveTypeName (element : XmlElement) (assumedTypeName : String) :
    String :=
  match (element.attributes.find? (fun a => a.name = "type")).map (·.value) with
  | some tn => if tn = "" then assumedTypeName else tn
  | none => assumedTypeName

mutual

/-- `SoapHelper.convertSoapElementToObjectLiteral` (`soap_helper.ts`
lines 618–671): resolve the override, then either leaf conversion (no
children) or, for a complex type, recursive child conversion; an element
with children whose resolved type is not a complex type throws
`Invalid usage`. -/
def convertSoapElementToObjectLiteral (fuel : Nat)
    (types : HelperTypeIndex) (assumedTypeName : String)
    (element : XmlElement) : Except HelperError JsValue :=
  match fuel with
  | 0 => .error .outOfFuel
  | fuel + 1 =>
    let typeName := helperResolveTypeName element assumedTypeName
    let type? := cacheLookup types typeName
    match element.children with
    | [] =>
      let text := element.text
      if ["int", "long", "double"].contains typeName then
        -- `Number(text)`; note `Number("") = 0`, unlike the new decoder.
        .ok (match parseNumber text with
             | some n => .num n
             | none => .nan)
      else if typeName = "boolean" then .ok (.bool (text = "true"))
      else if typeName = "string" ||
          (match type? with
           | some (.enumT _ _) => true
           | _ => false) then
        .ok (.str text)
      else .ok .null
    | children =>
      match type? with
      | some (.complexT _ properties _ _) =>
        helperConvertChildren fuel types properties children []
      | _ => .error (.invalidUsage typeName)
termination_by structural fuel

/-- The `for (const child of children)` loop of
`SoapHelper.convertSoapElementToObjectLiteral` (lines 649–669): a repeated
property name pushes onto the existing array, an array property starts a
fresh array dropping an empty-string or `null` child value, everything
else assigns directly. -/
def helperConvertChildren (fuel : Nat) (types : HelperTypeIndex)
    (properties : List (String × ComplexTypeProperty))
    (children : List XmlElement) (obj : List (String × JsValue)) :
    Except HelperError JsValue :=
  match fuel with
  | 0 => .error .outOfFuel
  | fuel + 1 =>
    match children with
    | [] => .ok (.obj obj)
    | child :: rest =>
      let propertyName := child.name
      match assocGet properties propertyName with
      | none => .error (.notValid propertyName)
      | some property =>
        match convertSoapElementToObjectLiteral fuel types property.type
            child with
        | .error e => .error e
        | .ok childValue =>
          match assocGet obj propertyName with
          | some (.arr xs) =>
            helperConvertChildren fuel types properties rest
              (assocSet obj propertyName (.arr (xs ++ [childValue])))
          | some _ => .error .typeError
          | none =>
            if property.isArray then
              let childArray :=
                match childValue with
                | .str "" => ([] : List JsValue)
                | .null => []
                | v => [v]
              helperConvertChildren fuel types properties rest
                (assocSet obj propertyName (.arr childArray))
            else
              helperConvertChildren fuel types properties rest
                (assocSet obj propertyName childValue)
termination_by structural fuel

end

/-! ## `AdManagerService` response handling (`ad_manager_service.ts`) -/

/-- The conditions `performOperation` can end in, besides a normal
return. -/
inductive ServiceError where
  /-- `No body element found in response` (line 111). -/
  | noResponseElement
  /-- A JavaScript `TypeError` from dereferencing `undefined`: the fault
  envelope had no `detail` element, or the response type name is absent
  from the type index. -/
  | typeError
  /-- An error propagated out of the decoder. -/
  | decodeFailed (e : DecodeError)
  /-- `AdManagerServerFault`, carrying the decoded `ApiException`
  object (line 159). -/
  | serverFault (fault : JsValue)

/-- `getResponseElement` (lines 96–122): the first content element of the
SOAP `Body`; a body whose first child is named `Fault` redirects to the
first content element of the fault's `detail` child and renames the
response type to `ApiException`.  A document is modelled by its root
element, and `getContent(0).asElement()` by the first child element. -/
def getResponseElement (responseXml : XmlElement) :
    Except ServiceError (String × Option XmlElement) :=
  let responseElement? :=
    (responseXml.children.find? (fun c => c.name = "Body")).bind
      (fun b => b.children.head?)
  match responseElement? with
  | none => .error .noResponseElement
  | some responseElement =>
    let responseTypeName := responseElement.name
    if responseTypeName = "Fault" then
      .ok ("ApiException",
        (responseElement.children.find? (fun c => c.name = "detail")).bind
          (fun d => d.children.head?))
    else .ok (responseTypeName, some responseElement)

/-- The response half of `performOperation` (lines 150–162): parse the
response, decode it against the type named by `getResponseElement`, and
either raise `AdManagerServerFault` (for `ApiException`) or return the
`rval` field.  A missing redirected element or a response type name
absent from `serviceTypes` crashes inside the decoder in JavaScript,
modelled by `ServiceError.typeError`. -/
def processOperationResponse (fuel : Nat) (serviceTypes : SoapTypeIndex)
    (st : ParserState) (responseXml : XmlElement) :
    Except ServiceError JsValue × ParserState :=
  match getResponseElement responseXml with
  | .error e => (.error e, st)
  | .ok (responseTypeName, responseElement?) =>
    match cacheLookup serviceTypes responseTypeName, responseElement? with
    | some soapObjectTypeForResponse, some responseElement =>
      match convertXmlElementToObjectLiteral fuel serviceTypes st
          responseElement soapObjectTypeForResponse with
      | (.error e, st₁) => (.error (.decodeFailed e), st₁)
      | (.ok responseObject, st₁) =>
        if responseTypeName = "ApiException" then
          (.error (.serverFault responseObject), st₁)
        else (.ok (jsGet responseObject "rval"), st₁)
    | _, _ => (.error .typeError, st)

/-! ## Helper lemmas: decimal round trip and escaping -/

theorem digitChar_toNat (d : Nat) (hd : d < 10) :
    (digitChar d).toNat = 48 + d := by
  interval_cases d <;> decide

theorem charDigit_digitChar (d : Nat) (hd : d < 10) :
    charDigit (digitChar d) = some d := by
  interval_cases d <;> decide

theorem natFromCharsAux_append (acc : Nat) (xs ys : List Char) :
    natFromCharsAux acc (xs ++ ys) =
      match natFromCharsAux acc xs with
      | some a => natFromCharsAux a ys
      | none => none := by
  induction xs generalizing acc with
  | nil => simp [natFromCharsAux]
  | cons c cs ih =>
    simp only [List.cons_append, natFromCharsAux]
    cases charDigit c with
    | some d => simp [ih]
    | none => simp

theorem natFromCharsAux_digits (ds : List Nat) (h : ∀ d ∈ ds, d < 10) :
    ∀ acc : Nat, natFromCharsAux acc ((ds.map digitChar).reverse) =
      some (Nat.ofDigits 10 ds + acc * 10 ^ ds.length) := by
  induction ds with
  | nil => intro acc; simp [natFromCharsAux, Nat.ofDigits]
  | cons d rest ih =>
    intro acc
    have hd : d < 10 := h d (by simp)
    have hrest : ∀ x ∈ rest, x < 10 := fun x hx => h x (by simp [hx])
    rw [List.map_cons, List.reverse_cons, natFromCharsAux_append, ih hrest acc]
    simp only [natFromCharsAux, charDigit_digitChar d hd, Nat.ofDigits_cons,
      List.length_cons]
    congr 1
    ring

theorem natToString_data (n : Nat) (hn : n ≠ 0) :
    (natToString n).data = ((Nat.digits 10 n).map digitChar).reverse := by
  unfold natToString
  rw [if_neg hn]

theorem natFromChars_natToString (n : Nat) :
    natFromChars (natToString n).data = some n := by
  by_cases hn : n = 0
  · subst hn; decide
  · rw [natToString_data n hn]
    have hne : Nat.digits 10 n ≠ [] := by
      simpa using Nat.digits_ne_nil_iff_ne_zero.mpr hn
    have hlt : ∀ d ∈ Nat.digits 10 n, d < 10 := fun d hd =>
      Nat.digits_lt_base (by norm_num) hd
    rw [natFromChars, if_neg (by simpa using hne)]
    rw [natFromCharsAux_digits (Nat.digits 10 n) hlt 0]
    simp [Nat.ofDigits_digits]

theorem natToString_chars (n : Nat) :
    ∀ c ∈ (natToString n).data, 48 ≤ c.toNat ∧ c.toNat ≤ 57 := by
  by_cases hn : n = 0
  · subst hn; decide
  · rw [natToString_data n hn]
    intro c hc
    rw [List.mem_reverse, List.mem_map] at hc
    obtain ⟨d, hd, rfl⟩ := hc
    have : d < 10 := Nat.digits_lt_base (by norm_num) hd
    rw [digitChar_toNat d this]
    omega

theorem natToString_ne_nil (n : Nat) : (natToString n).data ≠ [] := by
  by_cases hn : n = 0
  · subst hn; decide
  · rw [natToString_data n hn]
    have hne : Nat.digits 10 n ≠ [] := by
      simpa using Nat.digits_ne_nil_iff_ne_zero.mpr hn
    simpa using hne

theorem parseNumber_natToString (n : Nat) :
    parseNumber (natToString n) = some (n : Int) := by
  unfold parseNumber
  rcases hcons : (natToString n).data with _ | ⟨c, cs⟩
  · exact absurd hcons (natToString_ne_nil n)
  · have hc : 48 ≤ c.toNat ∧ c.toNat ≤ 57 :=
      natToString_chars n c (by rw [hcons]; simp)
    have hminus : ¬ c = '-' := fun h => by subst h; revert hc; decide
    have hplus : ¬ c = '+' := fun h => by subst h; revert hc; decide
    dsimp only
    rw [if_neg hminus, if_neg hplus, ← hcons, natFromChars_natToString]
    rfl

theorem string_data_append (a b : String) : (a ++ b).data = a.data ++ b.data :=
  rfl

theorem parseNumber_intToString (n : Int) :
    parseNumber (intToString n) = some n := by
  unfold intToString
  by_cases hneg : n < 0
  · rw [if_pos hneg]
    unfold parseNumber
    rw [string_data_append]
    have hdash : ("-" : String).data = ['-'] := rfl
    rw [hdash]
    dsimp only [List.cons_append, List.nil_append]
    rw [if_pos rfl, natFromChars_natToString]
    show some (-(n.natAbs : Int)) = some n
    congr 1
    omega
  · rw [if_neg hneg, parseNumber_natToString]
    congr 1
    omega

/-- A character none of the five escapes rewrites. -/
def plainChar (c : Char) : Bool :=
  c.toNat ≠ 38 && c.toNat ≠ 60 && c.toNat ≠ 62 && c.toNat ≠ 34 &&
    c.toNat ≠ 39

theorem plainChar_iff (c : Char) : plainChar c = true ↔
    (c.toNat ≠ 38 ∧ c.toNat ≠ 60 ∧ c.toNat ≠ 62 ∧ c.toNat ≠ 34 ∧
      c.toNat ≠ 39) := by
  unfold plainChar
  simp only [Bool.and_eq_true, decide_eq_true_eq, ne_eq]
  tauto

theorem escapeChar_plain (c : Char) (h : plainChar c = true) :
    escapeChar c = String.mk [c] := by
  rw [plainChar_iff] at h
  unfold escapeChar
  rw [if_neg h.1, if_neg h.2.1, if_neg h.2.2.1, if_neg h.2.2.2.1,
    if_neg h.2.2.2.2]

theorem escapeList_plain (cs : List Char) (h : ∀ c ∈ cs, plainChar c = true) :
    escapeList cs = cs := by
  induction cs with
  | nil => rfl
  | cons c rest ih =>
    rw [escapeList, escapeChar_plain c (h c (by simp)),
      ih (fun x hx => h x (by simp [hx]))]
    rfl

/-- Whether a string is untouched by XML escaping. -/
def xmlSafe (s : String) : Bool := s.data.all plainChar

theorem escapeXml_safe (s : String) (h : xmlSafe s = true) :
    escapeXml s = s := by
  unfold escapeXml
  rw [escapeList_plain s.data (by simpa [xmlSafe, List.all_eq_true] using h)]

theorem plainChar_of_digit (c : Char) (h : 48 ≤ c.toNat ∧ c.toNat ≤ 57) :
    plainChar c = true := by
  rw [plainChar_iff]
  omega

theorem escapeXml_natToString (n : Nat) :
    escapeXml (natToString n) = natToString n := by
  apply escapeXml_safe
  unfold xmlSafe
  rw [List.all_eq_true]
  intro c hc
  exact plainChar_of_digit c (natToString_chars n c hc)

theorem escapeXml_intToString (n : Int) :
    escapeXml (intToString n) = intToString n := by
  apply escapeXml_safe
  unfold intToString
  by_cases hneg : n < 0
  · rw [if_pos hneg]
    unfold xmlSafe
    rw [string_data_append, List.all_append]
    have h1 : (("-" : String).data.all plainChar) = true := by decide
    rw [h1, Bool.true_and, List.all_eq_true]
    intro c hc
    exact plainChar_of_digit c (natToString_chars n.natAbs c hc)
  · rw [if_neg hneg]
    unfold xmlSafe
    rw [List.all_eq_true]
    intro c hc
    exact plainChar_of_digit c (natToString_chars n.natAbs c hc)

/-! ## Fixtures

Concrete type graphs exercising the behaviours the claims describe.  The
`Animal`/`Dog` pair is the inheritance example of the specification; the
`Value`/`NumberValue`/`TextValue` triple is the disambiguation exception
the source hard-codes. -/

/-- `Animal` as seen from `Dog.baseType`: the bare base type. -/
def AnimalAsBase : SoapObjectType :=
  .mk "Animal" none [("name", .mk "name" (.prim .string) false false)] none

/-- `Dog`, extending `Animal` with `breed`. -/
def DogType : SoapObjectType :=
  .mk "Dog" (some AnimalAsBase)
    [("breed", .mk "breed" (.prim .string) false false)] none

/-- `Animal` with its descendant `Dog`. -/
def AnimalType : SoapObjectType :=
  .mk "Animal" none [("name", .mk "name" (.prim .string) false false)]
    (some [DogType])

/-- A type index holding `Animal` and `Dog`. -/
def animalIndex : SoapTypeIndex := [("Animal", AnimalType), ("Dog", DogType)]

/-- A property `pet` declared with type `Animal`. -/
def petProperty : SoapObjectTypeProperty := .mk "pet" (.obj AnimalType) false false

/-- The XML element the encoded `pet` property denotes: a `pet` tag with
an `xsi:type="Dog"` override and the two text children. -/
def petElement (name breed : String) : XmlElement :=
  .mk "pet" [⟨"xsi", "type", "Dog"⟩]
    [.mk "name" [] [] name, .mk "breed" [] [] breed] ""

/-- `NumberValue`: declared shape is a string-typed `value` field. -/
def NumberValueType : SoapObjectType :=
  .mk "NumberValue" none
    [("value", .mk "value" (.prim .string) false false)] none

/-- `TextValue`: the declared shape is identical to `NumberValue`. -/
def TextValueType : SoapObjectType :=
  .mk "TextValue" none
    [("value", .mk "value" (.prim .string) false false)] none

/-- `Value` with the two structurally identical descendants, `NumberValue`
first in declaration order. -/
def ValueType : SoapObjectType :=
  .mk "Value" none [] (some [NumberValueType, TextValueType])

theorem intToString_ne_empty (n : Int) : intToString n ≠ "" := by
  unfold intToString
  by_cases hneg : n < 0
  · rw [if_pos hneg]
    intro h
    have h2 := congrArg String.data h
    rw [string_data_append] at h2
    simp at h2
  · rw [if_neg hneg]
    intro h
    exact natToString_ne_nil n.natAbs (congrArg String.data h)


/-! ## Round-trip helper facts -/

/-- Decoding an element whose text is the decimal rendering of an integer
against a numeric primitive type yields that integer back. -/
theorem decode_numeric_text (p : SoapPrim)
    (hp : p = .int ∨ p = .long ∨ p = .double) (n : Int) :
    convertXmlElementToPrimitiveType (.mk "val" [] [] (intToString n))
      (.prim p) = .num n := by
  have hne := intToString_ne_empty n
  rcases hp with rfl | rfl | rfl <;>
    (unfold convertXmlElementToPrimitiveType
     simp only [XmlElement.text]
     rw [if_neg hne]
     rw [parseNumber_intToString])

/-! ## Claim C2 -/

/-- C2, counterexample: the round trip fails on the empty string, which is
valid for the primitive type `string`.  Encoding `""` yields the empty
text node, and decoding an element with empty text content returns the
absent value `undefined`, not the empty string. -/
theorem c2_roundtrip_empty_string_counterexample :
    convertSimpleSoapTypeToXmlString (.prim .string) (.str "") = .ok "" ∧
    convertXmlElementToPrimitiveType (.mk "val" [] [] "") (.prim .string) =
      .undefined ∧
    JsValue.undefined ≠ JsValue.str "" :=
  ⟨rfl, rfl, fun h => JsValue.noConfusion h⟩

/-- C2 (amended): for the primitive types `int`, `long` and `double` with
integer values, and for `boolean` with boolean values, decoding an element
whose text content is the encoding of the value returns the value exactly;
for `string` the round trip holds for non-empty strings free of the five
XML-escaped characters, while the empty string decodes to the absent value
`undefined`. -/
theorem c2_primitive_roundtrip_amended :
    (∀ n : Int,
      convertSimpleSoapTypeToXmlString (.prim .int) (.num n) =
          .ok (intToString n) ∧
        convertSimpleSoapTypeToXmlString (.prim .long) (.num n) =
          .ok (intToString n) ∧
        convertSimpleSoapTypeToXmlString (.prim .double) (.num n) =
          .ok (intToString n) ∧
        convertXmlElementToPrimitiveType (.mk "val" [] [] (intToString n))
          (.prim .int) = .num n ∧
        convertXmlElementToPrimitiveType (.mk "val" [] [] (intToString n))
          (.prim .long) = .num n ∧
        convertXmlElementToPrimitiveType (.mk "val" [] [] (intToString n))
          (.prim .double) = .num n) ∧
    (∀ b : Bool,
      convertSimpleSoapTypeToXmlString (.prim .boolean) (.bool b) =
          .ok (jsToString (.bool b)) ∧
        convertXmlElementToPrimitiveType
          (.mk "val" [] [] (jsToString (.bool b))) (.prim .boolean) =
          .bool b) ∧
    (∀ s : String, s ≠ "" → xmlSafe s = true →
      convertSimpleSoapTypeToXmlString (.prim .string) (.str s) = .ok s ∧
        convertXmlElementToPrimitiveType (.mk "val" [] [] s)
          (.prim .string) = .str s) := by
  refine ⟨fun n => ?_, fun b => ?_, fun s hne hsafe => ?_⟩
  · have hint : convertSimpleSoapTypeToXmlString (.prim .int) (.num n) =
        .ok (escapeXml (intToString n)) := rfl
    have hlong : convertSimpleSoapTypeToXmlString (.prim .long) (.num n) =
        .ok (escapeXml (intToString n)) := rfl
    have hdouble : convertSimpleSoapTypeToXmlString (.prim .double) (.num n) =
        .ok (escapeXml (intToString n)) := rfl
    refine ⟨?_, ?_, ?_, ?_, ?_, ?_⟩
    · rw [hint, escapeXml_intToString]
    · rw [hlong, escapeXml_intToString]
    · rw [hdouble, escapeXml_intToString]
    · exact decode_numeric_text .int (by tauto) n
    · exact decode_numeric_text .long (by tauto) n
    · exact decode_numeric_text .double (by tauto) n
  · cases b <;> exact ⟨rfl, rfl⟩
  · constructor
    · have henc : convertSimpleSoapTypeToXmlString (.prim .string) (.str s) =
          .ok (escapeXml s) := rfl
      rw [henc, escapeXml_safe s hsafe]
    · unfold convertXmlElementToPrimitiveType
      dsimp only [XmlElement.text]
      rw [if_neg hne]

/-- C2, witness for the amended round trip. -/
theorem c2_primitive_roundtrip_amended_witness :
    convertSimpleSoapTypeToXmlString (.prim .string) (.str "ab") = .ok "ab" ∧
    convertXmlElementToPrimitiveType (.mk "val" [] [] "ab")
      (.prim .string) = .str "ab" :=
  c2_primitive_roundtrip_amended.2.2 "ab" (by decide) (by decide)

/-! ## Claim C3 -/

/-- C3, counterexample: encoding the scalar `null` against the primitive
type `boolean` does not produce an empty text node; it throws the
invalid-usage error, because `String(null)` is not `"true"` or
`"false"`. -/
theorem c3_null_boolean_counterexample :
    convertSimpleSoapTypeToXmlString (.prim .boolean) .null =
      .error (.invalidUsage (.prim .boolean) .null) := rfl

/-- C3 (amended): the scalar `null` encodes to the empty text node without
error for the primitive types `string`, `int`, `long` and `double`; for
`boolean` it raises the invalid-usage error, and for an enum type it
encodes to the empty text node exactly when the string `"null"` is among
the enumeration's allowed values, raising the invalid-usage error
otherwise. -/
theorem c3_null_encoding_amended :
    convertSimpleSoapTypeToXmlString (.prim .string) .null = .ok "" ∧
    convertSimpleSoapTypeToXmlString (.prim .int) .null = .ok "" ∧
    convertSimpleSoapTypeToXmlString (.prim .long) .null = .ok "" ∧
    convertSimpleSoapTypeToXmlString (.prim .double) .null = .ok "" ∧
    convertSimpleSoapTypeToXmlString (.prim .boolean) .null =
      .error (.invalidUsage (.prim .boolean) .null) ∧
    (∀ e : SoapEnumType,
      convertSimpleSoapTypeToXmlString (.enumT e) .null =
        if e.enumerations.contains "null" then .ok ""
        else .error (.invalidUsage (.enumT e) .null)) := by
  refine ⟨rfl, rfl, rfl, rfl, rfl, fun e => ?_⟩
  have hnull : jsToString JsValue.null = "null" := rfl
  unfold convertSimpleSoapTypeToXmlString
  dsimp only
  rw [hnull]
  cases e.enumerations.contains "null" <;> rfl

/-! ## Claim C9 -/

/-- First child type of the shared-key-set fixture: consumes key `a`, then
fails on its required property `x`. -/
def CAType : SoapObjectType :=
  .mk "CA" none
    [("a", .mk "a" (.prim .string) false false),
     ("x", .mk "x" (.prim .string) false false)] none

/-- Second child type of the shared-key-set fixture: consumes key `b`
only. -/
def CBType : SoapObjectType :=
  .mk "CB" none [("b", .mk "b" (.prim .string) false false)] none

/-- A base type with no own properties and the two children above. -/
def SharedSetBase : SoapObjectType := .mk "B" none [] (some [CAType, CBType])

/-- The same base type with only the second child. -/
def SharedSetBaseOnlyCB : SoapObjectType := .mk "B2" none [] (some [CBType])

/-- A value carrying both keys `a` and `b`. -/
def sharedSetValue : JsValue := .obj [("a", .str "A"), ("b", .str "B")]

/-- C9: the working key set is shared across sibling trials.  The failing
trial of `CA` consumes (deletes) the key `a` before throwing on its
missing required property `x`, so the subsequent trial of `CB` sees only
`b` left, succeeds, and the encoder returns `<b>B</b>`: the key `a` of the
value is silently omitted from the output.  Had `CA` not been tried first
(base type with child `CB` only), the same value would be rejected with
the unrecognized-properties error for `a`. -/
theorem c9_shared_keyset_silent_omission :
    jsHasKey sharedSetValue "a" = true ∧
    convertSoapObjectToXmlString 10 SharedSetBase sharedSetValue =
      .ok "<b>B</b>" ∧
    convertSoapObjectToXmlString 10 SharedSetBaseOnlyCB sharedSetValue =
      .error (.unrecognizedProperties "CB" ["a"]) :=
  ⟨rfl, rfl, rfl⟩

/-! ## Claim C4 -/

/-- The text a scalar encodes to under the `string` property type: empty
for `null`, the escaped `String` conversion otherwise (the result
`convertSimpleSoapTypeToXmlString (.prim .string)` always produces). -/
def simpleTextFor (p : JsValue) : String :=
  match p with
  | .null => ""
  | _ => escapeXml (jsToString p)

/-- Normalization of the concatenation shape the encoder builds for a
single `value` property. -/
theorem valueWrap (x : String) :
    "" ++ ("<" ++ "value" ++ ">" ++ x ++ "</" ++ "value" ++ ">" ++ "") =
      "<value>" ++ x ++ "</value>" := by
  simp [String.append_assoc]

/-- C4: encoding against `Value`, whose descendants `NumberValue` and
`TextValue` have identical declared shapes, selects `NumberValue` exactly
when the runtime type of the `value` field is a number, and otherwise
skips `NumberValue` (by the `hasValueConflict` predicate) and selects
`TextValue` — declaration order alone never makes `NumberValue` win. -/
theorem c4_value_disambiguation (fuel : Nat) (p : JsValue) :
    (jsTypeof p = "number" →
      convertSoapValueToXmlString (fuel + 10) (.obj ValueType)
          (.obj [("value", p)]) =
        .ok ⟨.obj NumberValueType,
             "<value>" ++ simpleTextFor p ++ "</value>"⟩) ∧
    (jsTypeof p ≠ "number" → p ≠ .undefined → jsIsArray p = false →
      convertSoapValueToXmlString (fuel + 10) (.obj ValueType)
          (.obj [("value", p)]) =
        .ok ⟨.obj TextValueType,
             "<value>" ++ simpleTextFor p ++ "</value>"⟩) := by
  cases p with
  | num n =>
    refine ⟨fun _ => ?_, fun hn _ _ => absurd rfl hn⟩
    have h : convertSoapValueToXmlString (fuel + 10) (.obj ValueType)
        (.obj [("value", JsValue.num n)]) =
      .ok ⟨.obj NumberValueType,
        "" ++ ("<" ++ "value" ++ ">" ++ simpleTextFor (JsValue.num n) ++
          "</" ++ "value" ++ ">" ++ "")⟩ := rfl
    rw [h, valueWrap]
  | nan =>
    refine ⟨fun _ => ?_, fun hn _ _ => absurd rfl hn⟩
    have h : convertSoapValueToXmlString (fuel + 10) (.obj ValueType)
        (.obj [("value", JsValue.nan)]) =
      .ok ⟨.obj NumberValueType,
        "" ++ ("<" ++ "value" ++ ">" ++ simpleTextFor JsValue.nan ++
          "</" ++ "value" ++ ">" ++ "")⟩ := rfl
    rw [h, valueWrap]
  | str s =>
    refine ⟨fun hn => by simp [jsTypeof] at hn, fun _ _ _ => ?_⟩
    have h : convertSoapValueToXmlString (fuel + 10) (.obj ValueType)
        (.obj [("value", JsValue.str s)]) =
      .ok ⟨.obj TextValueType,
        "" ++ ("<" ++ "value" ++ ">" ++ simpleTextFor (JsValue.str s) ++
          "</" ++ "value" ++ ">" ++ "")⟩ := rfl
    rw [h, valueWrap]
  | bool b =>
    refine ⟨fun hn => by simp [jsTypeof] at hn, fun _ _ _ => ?_⟩
    have h : convertSoapValueToXmlString (fuel + 10) (.obj ValueType)
        (.obj [("value", JsValue.bool b)]) =
      .ok ⟨.obj TextValueType,
        "" ++ ("<" ++ "value" ++ ">" ++ simpleTextFor (JsValue.bool b) ++
          "</" ++ "value" ++ ">" ++ "")⟩ := rfl
    rw [h, valueWrap]
  | null =>
    refine ⟨fun hn => by simp [jsTypeof] at hn, fun _ _ _ => ?_⟩
    have h : convertSoapValueToXmlString (fuel + 10) (.obj ValueType)
        (.obj [("value", JsValue.null)]) =
      .ok ⟨.obj TextValueType,
        "" ++ ("<" ++ "value" ++ ">" ++ simpleTextFor JsValue.null ++
          "</" ++ "value" ++ ">" ++ "")⟩ := rfl
    rw [h, valueWrap]
  | obj fs =>
    refine ⟨fun hn => by simp [jsTypeof] at hn, fun _ _ _ => ?_⟩
    have h : convertSoapValueToXmlString (fuel + 10) (.obj ValueType)
        (.obj [("value", JsValue.obj fs)]) =
      .ok ⟨.obj TextValueType,
        "" ++ ("<" ++ "value" ++ ">" ++ simpleTextFor (JsValue.obj fs) ++
          "</" ++ "value" ++ ">" ++ "")⟩ := rfl
    rw [h, valueWrap]
  | undefined =>
    exact ⟨fun hn => by simp [jsTypeof] at hn, fun _ hu _ => absurd rfl hu⟩
  | arr xs =>
    refine ⟨fun hn => by simp [jsTypeof] at hn, fun _ _ ha => ?_⟩
    exact absurd ha (by simp [jsIsArray])

/-- C4, witness: a string-typed `value` field is routed past `NumberValue`
to `TextValue`. -/
theorem c4_value_disambiguation_witness :
    convertSoapValueToXmlString 10 (.obj ValueType)
        (.obj [("value", .str "abc")]) =
      .ok ⟨.obj TextValueType,
           "<value>" ++ simpleTextFor (.str "abc") ++ "</value>"⟩ :=
  (c4_value_disambiguation 0 (.str "abc")).2 (by decide)
    (fun h => JsValue.noConfusion h) rfl

/-! ## Claim C7 -/

/-- An object type holding a single array property of the given primitive
element type. -/
def primArrayHolder (p : SoapPrim) : SoapObjectType :=
  .mk "ArrayHolder" none [("items", .mk "items" (.prim p) true true)] none

/-- An element with one `items` child whose text content is empty. -/
def emptyItemsElement : XmlElement :=
  .mk "holder" [] [.mk "items" [] [] ""] ""

/-- An enum of colours, used by the enum-array fixtures. -/
def colorEnum : SoapEnumType := ⟨"Color", ["RED", "BLUE"]⟩

/-- An object type holding a single array property of enum type. -/
def enumArrayHolder : SoapObjectType :=
  .mk "EnumArrayHolder" none
    [("tags", .mk "tags" (.enumT colorEnum) true true)] none

/-- An element with one `tags` child whose text content is empty. -/
def emptyTagsElement : XmlElement :=
  .mk "holder" [] [.mk "tags" [] [] ""] ""

/-- C7, counterexample: for an array property of *enum* type, decoding an
element whose child for that property has empty text content does not
yield the empty sequence — the empty string is appended, because the
decoder's enum branch returns the element text verbatim, never the absent
value the drop rule tests for. -/
theorem c7_empty_enum_array_counterexample :
    (convertXmlElementToObjectLiteral 10 [] .initial emptyTagsElement
        enumArrayHolder).1 =
      .ok (.obj [("tags", .arr [.str ""])]) ∧
    JsValue.arr [.str ""] ≠ JsValue.arr [] :=
  ⟨rfl, by simp⟩

/-- C7 (amended): encoding an array property with zero entries produces
the empty string for every property, and decoding an element whose child
for the property has empty text content yields an empty sequence when the
property's element type is a *primitive* (whose empty text decodes to the
absent value, which the array accumulator drops); for an enum-typed array
property the empty string is appended instead. -/
theorem c7_empty_array_roundtrip_amended (fuel : Nat) (nm : String)
    (ty : SoapType) (opt : Bool) (p : SoapPrim) :
    convertSoapObjectPropertyToXmlString (fuel + 2) (.mk nm ty true opt)
        (.arr []) = .ok "" ∧
    (convertXmlElementToObjectLiteral (fuel + 3) [] .initial
        emptyItemsElement (primArrayHolder p)).1 =
      .ok (.obj [("items", .arr [])]) ∧
    (convertXmlElementToObjectLiteral (fuel + 3) [] .initial
        emptyTagsElement enumArrayHolder).1 =
      .ok (.obj [("tags", .arr [.str ""])]) :=
  ⟨rfl, rfl, rfl⟩

/-! ## Claim C10 -/

/-- C10: the decoder's enum branch returns the element text verbatim
(never the absent value `undefined`), so in an array context an
empty-text enum element is appended as the empty string, while an
empty-text primitive element decodes to `undefined` and is dropped by the
accumulator. -/
theorem c10_enum_empty_text_appended (fuel : Nat)
    (serviceTypes : SoapTypeIndex) (st : ParserState) (element : XmlElement)
    (e : SoapEnumType) (p : SoapPrim) :
    convertXmlElementToSoapType (fuel + 1) serviceTypes st element
        (.enumT e) = (.ok (.str element.text), st) ∧
    JsValue.str element.text ≠ JsValue.undefined ∧
    convertXmlElementToPrimitiveType (.mk "items" [] [] "") (.prim p) =
      .undefined ∧
    (convertXmlElementToObjectLiteral (fuel + 3) [] .initial
        emptyTagsElement enumArrayHolder).1 =
      .ok (.obj [("tags", .arr [.str ""])]) ∧
    (convertXmlElementToObjectLiteral (fuel + 3) [] .initial
        emptyItemsElement (primArrayHolder p)).1 =
      .ok (.obj [("items", .arr [])]) :=
  ⟨rfl, fun h => JsValue.noConfusion h, rfl, rfl, rfl⟩

/-! ## Claim C6 -/

/-- Whether an optional type lookup found a complex type
(`type instanceof ComplexType`). -/
def helperFoundComplex : Option HelperSoapType → Bool
  | some t => t.isComplex
  | none => false

/-- An element that has a child element (and its own text `zz`). -/
def elementWithChild : XmlElement :=
  .mk "v" [] [.mk "inner" [] [] "t"] "zz"

/-- C6, counterexample: in the `SoapParser` decoder, an element that has
child elements but whose declared type is an enum does not fail — the
enum branch returns the element text and never raises an invalid-usage
error. -/
theorem c6_parser_enum_children_counterexample :
    elementWithChild.children ≠ [] ∧
    (convertXmlElementToSoapType 5 [] .initial elementWithChild
        (.enumT colorEnum)).1 = .ok (.str "zz") :=
  ⟨by simp [elementWithChild, XmlElement.children], rfl⟩

/-- C6 (amended): in the legacy `SoapHelper` decoder, an element with
child elements whose resolved type (after the `type` override attribute)
is not a complex type — a primitive name absent from the type map, or an
enum — fails with the invalid-usage error; the `SoapParser` decoder, by
contrast, returns the element text for an enum declared type even when
child elements are present. -/
theorem c6_invalid_usage_amended (fuel : Nat) (types : HelperTypeIndex)
    (assumedTypeName : String) (element : XmlElement)
    (hchildren : element.children ≠ [])
    (hnc : helperFoundComplex
      (cacheLookup types (helperResolveTypeName element assumedTypeName)) =
      false) :
    convertSoapElementToObjectLiteral (fuel + 1) types assumedTypeName
        element =
      .error (.invalidUsage
        (helperResolveTypeName element assumedTypeName)) ∧
    (∀ (serviceTypes : SoapTypeIndex) (st : ParserState)
        (e : SoapEnumType),
      convertXmlElementToSoapType (fuel + 1) serviceTypes st element
        (.enumT e) = (.ok (.str element.text), st)) := by
  refine ⟨?_, fun _ _ _ => rfl⟩
  unfold convertSoapElementToObjectLiteral
  dsimp only
  rcases hcs : element.children with _ | ⟨c, cs⟩
  · exact absurd hcs hchildren
  · rcases hty : cacheLookup types
        (helperResolveTypeName element assumedTypeName) with _ | t
    · rfl
    · cases t with
      | complexT nm props base ext =>
        rw [hty] at hnc
        exact absurd hnc (by simp [helperFoundComplex, HelperSoapType.isComplex])
      | enumT nm es => rfl

/-- C6, witness: an enum-typed element with a child fails in the
`SoapHelper` decoder. -/
theorem c6_invalid_usage_amended_witness :
    convertSoapElementToObjectLiteral 5 [("Color", .enumT "Color" ["RED"])]
        "Color" elementWithChild = .error (.invalidUsage "Color") :=
  (c6_invalid_usage_amended 4 [("Color", .enumT "Color" ["RED"])] "Color"
    elementWithChild (by simp [elementWithChild, XmlElement.children])
    (by decide)).1

/-! ## Claim C1 -/

/-- Decoding a non-empty text element against the `string` primitive
returns the text. -/
theorem decode_string_text (nm : String) (s : String) (h : s ≠ "") :
    convertXmlElementToPrimitiveType (.mk nm [] [] s) (.prim .string) =
      .str s := by
  unfold convertXmlElementToPrimitiveType
  simp only [XmlElement.text]
  rw [if_neg h]

/-- C1: encoding a value with keys `name` and `breed` against a property
declared as the base type `Animal` searches into the descendant `Dog`,
succeeds, and wraps the property fragments in a `pet` tag carrying
`xsi:type="Dog"` — exactly the serialization of `petElement`; decoding
that element back against the declared type `Animal` resolves `Dog` from
the `type` override attribute and returns a value with the same `name`
and `breed` keys. -/
theorem c1_animal_dog_override_roundtrip (fuel : Nat) (s₁ s₂ : String)
    (h₁ : s₁ ≠ "") (h₂ : s₂ ≠ "") :
    convertSoapObjectPropertyToXmlString (fuel + 12) petProperty
        (.obj [("name", .str s₁), ("breed", .str s₂)]) =
      .ok (renderXml (petElement s₁ s₂)) ∧
    renderXml (petElement s₁ s₂) =
      "<pet xsi:type=\"Dog\"><name>" ++ escapeXml s₁ ++ "</name><breed>" ++
        escapeXml s₂ ++ "</breed></pet>" ∧
    (convertXmlElementToObjectLiteral (fuel + 4) animalIndex .initial
        (petElement s₁ s₂) AnimalType).1 =
      .ok (.obj [("name", .str s₁), ("breed", .str s₂)]) := by
  have hrender : renderXml (petElement s₁ s₂) =
      "<pet xsi:type=\"Dog\"><name>" ++ escapeXml s₁ ++ "</name><breed>" ++
        escapeXml s₂ ++ "</breed></pet>" := by
    have hu : renderXml (petElement s₁ s₂) =
        "<" ++ "pet" ++ ("" ++ (" " ++ ("xsi" ++ ":" ++ "type") ++ "=\"" ++
          "Dog" ++ "\"")) ++ ">" ++
          ("<" ++ "name" ++ "" ++ ">" ++ escapeXml s₁ ++ "</" ++ "name" ++
              ">" ++
            ("<" ++ "breed" ++ "" ++ ">" ++ escapeXml s₂ ++ "</" ++
              "breed" ++ ">" ++ "")) ++
          "</" ++ "pet" ++ ">" := rfl
    rw [hu]
    simp only [String.append_assoc, String.append_empty, String.empty_append]
    rfl
  refine ⟨?_, hrender, ?_⟩
  · have he : convertSoapObjectPropertyToXmlString (fuel + 12) petProperty
        (.obj [("name", .str s₁), ("breed", .str s₂)]) =
      .ok ("<" ++ "pet" ++ " xsi:type=\"" ++ "Dog" ++ "\">" ++
        ("" ++
          ("<" ++ "name" ++ ">" ++ escapeXml s₁ ++ "</" ++ "name" ++ ">" ++
            "") ++
          ("<" ++ "breed" ++ ">" ++ escapeXml s₂ ++ "</" ++ "breed" ++
            ">" ++ "")) ++
        "</" ++ "pet" ++ ">" ++ "") := rfl
    rw [he, hrender]
    congr 1
    simp only [String.append_assoc, String.append_empty, String.empty_append]
    rfl
  · have hd : (convertXmlElementToObjectLiteral (fuel + 4) animalIndex
        .initial (petElement s₁ s₂) AnimalType).1 =
      .ok (.obj
        [("name", convertXmlElementToPrimitiveType (.mk "name" [] [] s₁)
            (.prim .string)),
         ("breed", convertXmlElementToPrimitiveType (.mk "breed" [] [] s₂)
            (.prim .string))]) := rfl
    rw [hd, decode_string_text "name" s₁ h₁, decode_string_text "breed" s₂ h₂]

/-- C1, witness at concrete strings. -/
theorem c1_animal_dog_override_roundtrip_witness :
    convertSoapObjectPropertyToXmlString 12 petProperty
        (.obj [("name", .str "x"), ("breed", .str "y")]) =
      .ok (renderXml (petElement "x" "y")) ∧
    (convertXmlElementToObjectLiteral 4 animalIndex .initial
        (petElement "x" "y") AnimalType).1 =
      .ok (.obj [("name", .str "x"), ("breed", .str "y")]) :=
  ⟨(c1_animal_dog_override_roundtrip 0 "x" "y" (by decide) (by decide)).1,
   (c1_animal_dog_override_roundtrip 0 "x" "y" (by decide) (by decide)).2.2⟩

/-! ## Claim C5 -/

/-- C5: a response whose SOAP body's first element is the recognized
`Fault` tag is redirected — the decode target becomes the first element of
the fault's `detail` child, decoded against the `ApiException` type from
the index — and the operation raises the distinguished server-fault error
carrying the decoded fault object instead of returning a value,
regardless of the nominal operation-response type. -/
theorem c5_fault_redirect_server_fault (fuel : Nat)
    (serviceTypes : SoapTypeIndex) (st st₁ : ParserState)
    (responseXml body faultEl detailEl apiEl : XmlElement)
    (apiType : SoapObjectType) (o : JsValue)
    (hbody : responseXml.children.find? (fun c => c.name = "Body") =
      some body)
    (hfirst : body.children.head? = some faultEl)
    (hname : faultEl.name = "Fault")
    (hdetail : faultEl.children.find? (fun c => c.name = "detail") =
      some detailEl)
    (happ : detailEl.children.head? = some apiEl)
    (htype : cacheLookup serviceTypes "ApiException" = some apiType)
    (hdecode : convertXmlElementToObjectLiteral fuel serviceTypes st apiEl
      apiType = (.ok o, st₁)) :
    processOperationResponse fuel serviceTypes st responseXml =
      (.error (.serverFault o), st₁) := by
  unfold processOperationResponse getResponseElement
  rw [hbody]
  dsimp only [Option.bind]
  rw [hfirst]
  dsimp only
  rw [hname]
  rw [if_pos rfl]
  dsimp only
  rw [hdetail]
  dsimp only [Option.bind]
  rw [happ, htype]
  dsimp only
  rw [hdecode]
  rfl

/-- The `ApiException` type of the fault fixture. -/
def apiExceptionType : SoapObjectType :=
  .mk "ApiException" none
    [("message", .mk "message" (.prim .string) false true)] none

/-- A type index holding `ApiException`. -/
def faultIndex : SoapTypeIndex := [("ApiException", apiExceptionType)]

/-- The `ApiException` element inside the fault fixture. -/
def apiExceptionElement : XmlElement :=
  .mk "ApiException" [] [.mk "message" [] [] "boom"] ""

/-- The `detail` element of the fault fixture. -/
def faultDetailElement : XmlElement :=
  .mk "detail" [] [apiExceptionElement] ""

/-- The `Fault` element of the fault fixture. -/
def faultElement : XmlElement :=
  .mk "Fault" [] [.mk "faultstring" [] [] "boom", faultDetailElement] ""

/-- The `Body` element of the fault fixture. -/
def faultBodyElement : XmlElement := .mk "Body" [] [faultElement] ""

/-- A complete fault response document: an envelope whose body's first
element is a `Fault` carrying a `detail` with an `ApiException`. -/
def faultDocument : XmlElement := .mk "Envelope" [] [faultBodyElement] ""

/-- C5, witness: processing the concrete fault document raises the
server-fault error with the decoded exception fields. -/
theorem c5_fault_redirect_server_fault_witness :
    processOperationResponse 10 faultIndex .initial faultDocument =
      (.error (.serverFault (.obj [("message", .str "boom")])),
        (convertXmlElementToObjectLiteral 10 faultIndex .initial
          apiExceptionElement apiExceptionType).2) :=
  c5_fault_redirect_server_fault 10 faultIndex .initial _ faultDocument
    faultBodyElement faultElement faultDetailElement apiExceptionElement
    apiExceptionType (.obj [("message", .str "boom")])
    rfl rfl rfl rfl rfl rfl (Prod.ext rfl rfl)

/-! ## Claim C8 -/

/-- A `Map.set` followed by `Map.get` of the same key returns the stored
value, whatever was in the map before. -/
theorem cacheLookup_cacheInsert_self {α : Type} (c : List (String × α))
    (k : String) (v : α) : cacheLookup (cacheInsert c k v) k = some v := by
  induction c with
  | nil => simp [cacheLookup, cacheInsert, assocSet, List.find?]
  | cons e rest ih =>
    obtain ⟨k', w⟩ := e
    by_cases h : k' = k
    · subst h
      simp [cacheLookup, cacheInsert, assocSet, List.find?]
    · simp only [cacheInsert, assocSet, if_neg h] at ih ⊢
      simp only [cacheLookup, List.find?] at ih ⊢
      simp [h, ih]

/-- The object type of the stale-cache fixture: a single optional,
non-array `int` property `bar`. -/
def undefFieldHolder : SoapObjectType :=
  .mk "UndefHolder" none [("bar", .mk "bar" (.prim .int) false true)] none

/-- An element whose `bar` child has empty text, decoding to an
`undefined`-valued `bar` field. -/
def undefFieldElement : XmlElement := .mk "f" [] [.mk "bar" [] [] ""] ""

/-- C8, counterexample: decoding the same element twice against the same
type does not always return structurally equal results.  The first decode
returns an object with an `undefined`-valued `bar` key; the second is
reconstructed by `JSON.parse` from the cached `JSON.stringify` string, in
which the `undefined`-valued field does not exist, so the key set of the
two results differs. -/
theorem c8_decode_twice_counterexample :
    (convertXmlElementToObjectLiteral 10 [] .initial undefFieldElement
        undefFieldHolder).1 =
      .ok (.obj [("bar", .undefined)]) ∧
    (convertXmlElementToObjectLiteral 10 []
        (convertXmlElementToObjectLiteral 10 [] .initial undefFieldElement
          undefFieldHolder).2
        undefFieldElement undefFieldHolder).1 =
      .ok (.obj []) ∧
    JsValue.obj [("bar", .undefined)] ≠ JsValue.obj [] :=
  ⟨rfl, rfl, by simp⟩

/-- C8 (amended): decoding the same element twice against the same type
returns, on the second run, either the very value of the first run (when
the first run was itself served from the cache, which stores only the
serialized JSON string) or the JSON round-trip image of the first result —
equal to the first result except that `undefined`-valued properties are
dropped.  The second value is reconstructed by parsing the cached string,
never handed out as the stored instance. -/
theorem c8_decode_twice (fuel : Nat) (serviceTypes : SoapTypeIndex)
    (st st₁ : ParserState) (element : XmlElement) (t : SoapObjectType)
    (r₁ : JsValue)
    (h : convertXmlElementToObjectLiteral fuel serviceTypes st element t =
      (.ok r₁, st₁)) :
    (convertXmlElementToObjectLiteral fuel serviceTypes st₁ element t).1 =
        .ok r₁ ∨
      (convertXmlElementToObjectLiteral fuel serviceTypes st₁ element
        t).1 = .ok (jsonRoundTrip r₁) := by
  cases fuel with
  | zero =>
    exfalso
    unfold convertXmlElementToObjectLiteral at h
    exact Except.noConfusion (congrArg Prod.fst h)
  | succ f =>
    unfold convertXmlElementToObjectLiteral at h ⊢
    dsimp only at h ⊢
    split at h
    · -- cache hit: the state is unchanged and the same hit answers again
      rename_i cached hc
      injection h with h1 h2
      subst h2
      injection h1 with h1
      subst h1
      rw [hc]
      exact Or.inl rfl
    · -- cache miss
      rename_i hc
      split at h
      · -- override resolution failed: contradicts the successful run
        exfalso
        injection h with h1 h2
        exact Except.noConfusion h1
      · rename_i actualType hactual
        split at h
        · -- child conversion failed: contradicts the successful run
          exfalso
          injection h with h1 h2
          exact Except.noConfusion h1
        · rename_i fields st₂ hchildren
          injection h with h1 h2
          injection h1 with h1
          subst h1
          subst h2
          have hproj : ({ st₂ with
              convertedObjectCache :=
                cacheInsert st₂.convertedObjectCache
                  (t.name ++ renderXml element)
                  (jsonRoundTrip (.obj fields)) } :
              ParserState).convertedObjectCache =
              cacheInsert st₂.convertedObjectCache
                (t.name ++ renderXml element)
                (jsonRoundTrip (.obj fields)) := rfl
          rw [hproj, cacheLookup_cacheInsert_self]
          exact Or.inr rfl

/-- C8, witness: the decode-twice theorem applied to the concrete
fixture. -/
theorem c8_decode_twice_witness :
    (convertXmlElementToObjectLiteral 10 []
        (convertXmlElementToObjectLiteral 10 [] .initial undefFieldElement
          undefFieldHolder).2
        undefFieldElement undefFieldHolder).1 =
        .ok (.obj [("bar", .undefined)]) ∨
      (convertXmlElementToObjectLiteral 10 []
          (convertXmlElementToObjectLiteral 10 [] .initial undefFieldElement
            undefFieldHolder).2
          undefFieldElement undefFieldHolder).1 =
        .ok (jsonRoundTrip (.obj [("bar", .undefined)])) :=
  c8_decode_twice 10 [] .initial _ undefFieldElement undefFieldHolder
    (.obj [("bar", .undefined)]) (Prod.ext rfl rfl)

end GamSoap
